import Mathlib

/-!
Verification development for the blessed golden-file test engine.

The development shallowly embeds the engine's two procedural macros and the
test bodies they generate:

* the harness adapter produced by the attribute macro in
  blessed-macros/src/lib.rs (function harness);
* the discovery/synthesis loop of the function-like macro (function tests),
  which walks glob results, reads and parses fixture files and emits one
  test per case;
* the run-time body of each generated test: registry lookup, params
  re-parse, harness invocation, artifact serialization and write, and the
  git-status classification that decides pass/fail.

External collaborators (the file system, the git commands, and typed serde
deserialization of fixture files) are modelled as explicit inputs: each
call's outcome is a parameter of the embedded function.  The generic JSON
value layer (serde_json) is modelled by an executable value type with a
compact printer, a pretty printer and a recursive-descent parser; numbers
are modelled as integers (the engine never manufactures floating-point
values of its own), and strings are Unicode scalar sequences.
-/

/-- Boolean prefix test on character lists: models Rust str::starts_with. -/
def charsPre : List Char → List Char → Bool
  | [], _ => true
  | p :: ps, s =>
    match s with
    | [] => false
    | c :: cs => p == c && charsPre ps cs

/-- Models str::starts_with: p is a prefix of s. -/
def strStarts (p s : String) : Bool :=
  charsPre p.data s.data

/-- The string needle occurs contiguously inside hay. -/
def strContains (hay needle : String) : Prop :=
  ∃ pre post, hay = pre ++ needle ++ post

/-- The opening curly brace character (written by code point to keep string
literals free of braces). -/
def lcurl : Char := Char.ofNat 123

/-- The closing curly brace character. -/
def rcurl : Char := Char.ofNat 125

/-- Decimal digit character for a value below ten. -/
def digitChar (n : Nat) : Char := Char.ofNat (48 + n)

/-- Decimal digits of a natural number, most significant first, as written
by the Rust integer Display implementation. -/
def natToChars (n : Nat) : List Char :=
  if _h : n < 10 then [digitChar n]
  else natToChars (n / 10) ++ [digitChar (n % 10)]
termination_by n
decreasing_by exact Nat.div_lt_self (by omega) (by omega)

/-- Decimal rendering of an integer with a leading minus sign when
negative, as written by the Rust integer Display implementation. -/
def intChars (n : Int) : List Char :=
  if n < 0 then '-' :: natToChars n.natAbs else natToChars n.natAbs

/-- Lowercase hexadecimal digit character, as used by the serde_json
escape table. -/
def hexDigitChar (n : Nat) : Char :=
  if n < 10 then Char.ofNat (48 + n) else Char.ofNat (87 + n)

/-- Is this character an ASCII hexadecimal digit? -/
def isHexDig (c : Char) : Bool :=
  c.isDigit || ('a' ≤ c && c ≤ 'f') || ('A' ≤ c && c ≤ 'F')

/-- Numeric value of a hexadecimal digit character. -/
def hexVal (c : Char) : Nat :=
  if c.isDigit then c.toNat - 48
  else if 'a' ≤ c && c ≤ 'f' then c.toNat - 87
  else c.toNat - 55

/-- JSON string escaping of one character, per the serde_json serializer:
quote, backslash and the short control escapes get two-character forms,
any other control character below U+0020 gets a four-digit u-escape, and
everything else is written as itself. -/
def escJsonChar (c : Char) : List Char :=
  if c = '"' then ['\\', '"']
  else if c = '\\' then ['\\', '\\']
  else if c = Char.ofNat 8 then ['\\', 'b']
  else if c = '\t' then ['\\', 't']
  else if c = '\n' then ['\\', 'n']
  else if c = Char.ofNat 12 then ['\\', 'f']
  else if c = Char.ofNat 13 then ['\\', 'r']
  else if c.toNat < 32 then
    let hi := hexDigitChar (c.toNat / 16)
    let lo := hexDigitChar (c.toNat % 16)
    '\\' :: 'u' :: '0' :: '0' :: hi :: [lo]
  else [c]

/-- A quoted, escaped JSON string literal for the given character list. -/
def printStrChars (s : List Char) : List Char :=
  '"' :: (s.flatMap escJsonChar ++ ['"'])

/-- Model of serde_json::Value as it crosses the engine's boundaries.
Numbers are modelled as integers: the engine itself never constructs
floating-point numbers, and floating point is outside the model. -/
inductive Json where
  | null
  | bool (b : Bool)
  | num (n : Int)
  | str (s : String)
  | arr (xs : List Json)
  | obj (kvs : List (String × Json))

mutual

/-- Compact rendering of a JSON value: models Value::to_string, the
serde_json compact serializer (no whitespace, members in stored order). -/
def printJson : Json → List Char
  | .null => "null".data
  | .bool true => "true".data
  | .bool false => "false".data
  | .num n => intChars n
  | .str s => printStrChars s.data
  | .arr [] => ['[', ']']
  | .arr (x :: xs) => '[' :: (printJson x ++ printArrTail xs)
  | .obj [] => [lcurl, rcurl]
  | .obj (kv :: kvs) => lcurl :: (printMember kv ++ printObjTail kvs)

/-- Remaining array elements of the compact rendering, after the first. -/
def printArrTail : List Json → List Char
  | [] => [']']
  | x :: xs => ',' :: (printJson x ++ printArrTail xs)

/-- Remaining object members of the compact rendering, after the first. -/
def printObjTail : List (String × Json) → List Char
  | [] => [rcurl]
  | kv :: kvs => ',' :: (printMember kv ++ printObjTail kvs)

/-- One object member, compact: quoted key, colon, value. -/
def printMember : String × Json → List Char
  | (k, v) => printStrChars k.data ++ (':' :: printJson v)

end

/-- Compact serialization to a string: models Value::to_string. -/
def jsonToString (v : Json) : String :=
  String.mk (printJson v)

/-- Two spaces of indentation per nesting level, as written by the
serde_json pretty printer. -/
def indentChars (d : Nat) : List Char :=
  List.replicate (2 * d) ' '

mutual

/-- Pretty rendering at nesting depth d: models serde_json
to_string_pretty (two-space indent, newline-separated members, a space
after each key's colon, empty containers on one line). -/
def prettyJson (d : Nat) : Json → List Char
  | .null => "null".data
  | .bool true => "true".data
  | .bool false => "false".data
  | .num n => intChars n
  | .str s => printStrChars s.data
  | .arr [] => ['[', ']']
  | .arr (x :: xs) =>
      '[' :: '\n' :: (indentChars (d + 1) ++ prettyJson (d + 1) x ++
        prettyArrTail (d + 1) xs ++ ('\n' :: indentChars d) ++ [']'])
  | .obj [] => [lcurl, rcurl]
  | .obj (kv :: kvs) =>
      lcurl :: '\n' :: (indentChars (d + 1) ++ prettyMember (d + 1) kv ++
        prettyObjTail (d + 1) kvs ++ ('\n' :: indentChars d) ++ [rcurl])

/-- Remaining array elements of the pretty rendering, after the first. -/
def prettyArrTail (d : Nat) : List Json → List Char
  | [] => []
  | x :: xs => ',' :: '\n' :: (indentChars d ++ prettyJson d x ++ prettyArrTail d xs)

/-- Remaining object members of the pretty rendering, after the first. -/
def prettyObjTail (d : Nat) : List (String × Json) → List Char
  | [] => []
  | kv :: kvs => ',' :: '\n' :: (indentChars d ++ prettyMember d kv ++ prettyObjTail d kvs)

/-- One object member of the pretty rendering: quoted key, colon, space,
value. -/
def prettyMember (d : Nat) : String × Json → List Char
  | (k, v) => printStrChars k.data ++ (':' :: ' ' :: prettyJson d v)

end

/-- Pretty serialization to a string: models serde_json to_string_pretty. -/
def jsonToStringPretty (v : Json) : String :=
  String.mk (prettyJson 0 v)

/-- JSON insignificant whitespace, per the serde_json scanner. -/
def wsChar (c : Char) : Bool :=
  c == ' ' || c == '\t' || c == Char.ofNat 10 || c == Char.ofNat 13

/-- Skip insignificant whitespace. -/
def skipWs (cs : List Char) : List Char :=
  cs.dropWhile wsChar

/-- Body of a JSON string literal, after the opening quote: collects
characters up to the closing quote, decoding escapes as the serde_json
reader does.  Raw control characters are rejected; lone surrogate
u-escapes are outside the model and rejected. -/
def parseStrChars : List Char → Except String (List Char × List Char)
  | [] => .error "unexpected end of input in string"
  | c :: rest =>
      if c = '"' then .ok ([], rest)
      else if c = '\\' then
        match rest with
        | [] => .error "unexpected end of input in string"
        | e :: rest1 =>
          if e = '"' then (parseStrChars rest1).map fun (s, r) => ('"' :: s, r)
          else if e = '\\' then (parseStrChars rest1).map fun (s, r) => ('\\' :: s, r)
          else if e = '/' then (parseStrChars rest1).map fun (s, r) => ('/' :: s, r)
          else if e = 'b' then (parseStrChars rest1).map fun (s, r) => (Char.ofNat 8 :: s, r)
          else if e = 'f' then (parseStrChars rest1).map fun (s, r) => (Char.ofNat 12 :: s, r)
          else if e = 'n' then (parseStrChars rest1).map fun (s, r) => ('\n' :: s, r)
          else if e = 'r' then (parseStrChars rest1).map fun (s, r) => (Char.ofNat 13 :: s, r)
          else if e = 't' then (parseStrChars rest1).map fun (s, r) => ('\t' :: s, r)
          else if e = 'u' then
            (match rest1 with
             | h1 :: h2 :: h3 :: h4 :: rest2 =>
               if isHexDig h1 && isHexDig h2 && isHexDig h3 && isHexDig h4 then
                 let u := ((hexVal h1 * 16 + hexVal h2) * 16 + hexVal h3) * 16 + hexVal h4
                 if 55296 ≤ u && u < 57344 then .error "surrogate escapes are outside the model"
                 else (parseStrChars rest2).map fun (s, r) => (Char.ofNat u :: s, r)
               else .error "invalid hex escape"
             | _ => .error "unexpected end of input in string")
          else .error "invalid escape"
      else if c.toNat < 32 then .error "control character while parsing string"
      else (parseStrChars rest).map fun (s, r) => (c :: s, r)

/-- Consume a run of decimal digits, accumulating their value onto acc;
returns the accumulated value and the unconsumed remainder. -/
def parseDigitsAcc : List Char → Nat → Nat × List Char
  | [], acc => (acc, [])
  | c :: cs, acc =>
      if c.isDigit then parseDigitsAcc cs (acc * 10 + (c.toNat - 48))
      else (acc, c :: cs)

/-- Does the remainder begin with a character that would extend a number
(another digit, a fraction point or an exponent marker)?  The model
supports only integer numbers and rejects such continuations. -/
def numCont : List Char → Bool
  | [] => false
  | c :: _ => c.isDigit || c == '.' || c == 'e' || c == 'E'

/-- Consume an expected literal tail (after its already-inspected first
character), as the serde_json keyword reader does. -/
def expectChars : List Char → List Char → Except String (List Char)
  | [], cs => .ok cs
  | _ :: _, [] => .error "unexpected end of input"
  | l :: ls, c :: cs => if c = l then expectChars ls cs else .error "expected keyword"

/-- Consume an unsigned integer literal starting at a digit; the model
rejects fraction and exponent continuations (floating point is outside
the model). -/
def parseNat (cs : List Char) : Except String (Nat × List Char) :=
  let (m, r) := parseDigitsAcc cs 0
  if numCont r then .error "number form outside the model" else .ok (m, r)

mutual

/-- Fueled recursive-descent JSON value reader, modelling the serde_json
deserializer restricted to the model (integer numbers, no lone
surrogates).  Dispatch is on the first non-whitespace character, as in
the serde_json parser.  The fuel only bounds nesting recursion; callers
supply fuel larger than the value's recursive size. -/
def parseValue : Nat → List Char → Except String (Json × List Char)
  | 0, _ => .error "recursion limit exceeded"
  | Nat.succ n, cs =>
    match skipWs cs with
    | [] => .error "unexpected end of input"
    | c :: r =>
      if c = 'n' then (expectChars ['u', 'l', 'l'] r).map fun r1 => (Json.null, r1)
      else if c = 't' then (expectChars ['r', 'u', 'e'] r).map fun r1 => (Json.bool true, r1)
      else if c = 'f' then (expectChars ['a', 'l', 's', 'e'] r).map fun r1 => (Json.bool false, r1)
      else if c = '"' then
        match parseStrChars r with
        | .error e => .error e
        | .ok (s, r1) => .ok (.str (String.mk s), r1)
      else if c = '[' then
        match skipWs r with
        | [] => .error "unexpected end of input in array"
        | c1 :: r1 =>
          if c1 = ']' then .ok (.arr [], r1)
          else
            match parseValue n (c1 :: r1) with
            | .error e => .error e
            | .ok (v, r2) =>
              match parseArrTail n r2 with
              | .error e => .error e
              | .ok (vs, r3) => .ok (.arr (v :: vs), r3)
      else if c = lcurl then
        match skipWs r with
        | [] => .error "unexpected end of input in object"
        | c1 :: r1 =>
          if c1 = rcurl then .ok (.obj [], r1)
          else
            match parseMember n (c1 :: r1) with
            | .error e => .error e
            | .ok (kv, r2) =>
              match parseObjTail n r2 with
              | .error e => .error e
              | .ok (kvs, r3) => .ok (.obj (kv :: kvs), r3)
      else if c = '-' then
        match r with
        | [] => .error "expected digits after minus sign"
        | c1 :: _ =>
          if c1.isDigit then (parseNat r).map fun (m, r1) => (Json.num (-(m : Int)), r1)
          else .error "expected digits after minus sign"
      else if c.isDigit then (parseNat (c :: r)).map fun (m, r1) => (Json.num (m : Int), r1)
      else .error "expected a JSON value"

/-- After one array element: a comma and another element, or the closing
bracket. -/
def parseArrTail : Nat → List Char → Except String (List Json × List Char)
  | 0, _ => .error "recursion limit exceeded"
  | Nat.succ n, cs =>
    match skipWs cs with
    | [] => .error "unexpected end of input in array"
    | c :: r =>
      if c = ']' then .ok ([], r)
      else if c = ',' then
        match parseValue n r with
        | .error e => .error e
        | .ok (v, r1) =>
          match parseArrTail n r1 with
          | .error e => .error e
          | .ok (vs, r2) => .ok (v :: vs, r2)
      else .error "expected comma or end of array"

/-- One object member: quoted key, colon, value. -/
def parseMember : Nat → List Char → Except String ((String × Json) × List Char)
  | 0, _ => .error "recursion limit exceeded"
  | Nat.succ n, cs =>
    match skipWs cs with
    | [] => .error "unexpected end of input in object"
    | c :: r =>
      if c = '"' then
        match parseStrChars r with
        | .error e => .error e
        | .ok (k, r1) =>
          match skipWs r1 with
          | [] => .error "expected colon"
          | c1 :: r2 =>
            if c1 = ':' then
              match parseValue n r2 with
              | .error e => .error e
              | .ok (v, r3) => .ok ((String.mk k, v), r3)
            else .error "expected colon"
      else .error "object key must be a string"

/-- After one object member: a comma and another member, or the closing
brace. -/
def parseObjTail : Nat → List Char → Except String (List (String × Json) × List Char)
  | 0, _ => .error "recursion limit exceeded"
  | Nat.succ n, cs =>
    match skipWs cs with
    | [] => .error "unexpected end of input in object"
    | c :: r =>
      if c = rcurl then .ok ([], r)
      else if c = ',' then
        match parseMember n r with
        | .error e => .error e
        | .ok (kv, r1) =>
          match parseObjTail n r1 with
          | .error e => .error e
          | .ok (kvs, r2) => .ok (kv :: kvs, r2)
      else .error "expected comma or end of object"

end

/-- Whole-input deserialization: models serde_json::from_str for Value.
Reads one value, then requires only whitespace to remain. -/
def from_str (s : String) : Except String Json :=
  match parseValue (s.data.length + 1) s.data with
  | .error e => .error e
  | .ok (v, rest) =>
      if (skipWs rest).isEmpty then .ok v else .error "trailing characters"

mutual

/-- Fuel lower bound sufficient for parseValue to re-read a printed
value. -/
def jsizeV : Json → Nat
  | .null => 1
  | .bool _ => 1
  | .num _ => 1
  | .str _ => 1
  | .arr [] => 1
  | .arr (x :: xs) => 1 + jsizeV x + jsizeT xs
  | .obj [] => 1
  | .obj (kv :: kvs) => 1 + jsizeM kv + jsizeO kvs

/-- Fuel lower bound for parseArrTail on the printed tail. -/
def jsizeT : List Json → Nat
  | [] => 1
  | x :: xs => 1 + jsizeV x + jsizeT xs

/-- Fuel lower bound for parseMember on a printed member. -/
def jsizeM : String × Json → Nat
  | (_, v) => 1 + jsizeV v

/-- Fuel lower bound for parseObjTail on the printed tail. -/
def jsizeO : List (String × Json) → Nat
  | [] => 1
  | kv :: kvs => 1 + jsizeM kv + jsizeO kvs

end

/-- Rust Debug escaping of one character, as produced by formatting a
string with the debug formatter: the short escapes for quote, backslash,
tab, carriage return, newline and NUL, a u-escape for other control
characters, and every other scalar written as itself (the model covers
the printable range the engine produces). -/
def escDebugChar (c : Char) : List Char :=
  if c = '"' then ['\\', '"']
  else if c = '\\' then ['\\', '\\']
  else if c = '\n' then ['\\', 'n']
  else if c = Char.ofNat 13 then ['\\', 'r']
  else if c = '\t' then ['\\', 't']
  else if c = Char.ofNat 0 then ['\\', '0']
  else if c.toNat < 32 then
    '\\' :: 'u' :: lcurl :: (hexDigitChar (c.toNat / 16) :: hexDigitChar (c.toNat % 16) :: [rcurl])
  else [c]

/-- Rust Debug rendering of a string: the value surrounded by quotes with
Debug escapes applied. -/
def rustDebugStr (s : String) : String :=
  "\"" ++ String.mk (s.data.flatMap escDebugChar) ++ "\""

/-- Comma-space separated Debug renderings, as inside a Vec Debug form. -/
def debugListParts : List String → String
  | [] => ""
  | [x] => rustDebugStr x
  | x :: xs => rustDebugStr x ++ ", " ++ debugListParts xs

/-- Rust Debug rendering of a vector of strings: bracketed, comma-space
separated Debug strings. -/
def rustDebugStrList (names : List String) : String :=
  "[" ++ debugListParts names ++ "]"

/-- One registered harness: models blessed::HarnessFn, a static name and
the uniform invocation contract produced by the harness attribute. -/
structure HarnessFn where
  name : String
  func : Json → Except String Json

/-- Registry lookup: models the inventory scan
iter::<HarnessFn>.find(|h| h.name == harness_name), returning the first
entry whose name matches. -/
def lookupHarness (reg : List HarnessFn) (name : String) : Option HarnessFn :=
  reg.find? fun h => h.name == name

/-- The wrapper emitted by the harness attribute macro around a typed
function f: deserialize the input value (failure wraps the cause and
skips the body), apply f, serialize the output (failure wraps the
cause).  The typed (de)serializers are the external serde instances for
the harness's input and output types. -/
def harnessWrapper {I O : Type} (deser : Json → Except String I)
    (ser : O → Except String Json) (f : I → O) (inputJson : Json) :
    Except String Json :=
  match deser inputJson with
  | .error e => .error ("Failed to deserialize input: " ++ e)
  | .ok i =>
    match ser (f i) with
    | .error e => .error ("Failed to serialize output: " ++ e)
    | .ok v => .ok v

/-- One fixture entry: models the BlessedDefinition struct deserialized
from a fixture file (a harness name and an opaque params value). -/
structure BlessedDefinition where
  harness : String
  params : Json

/-- One path produced by the glob walk, as the discovery loop sees it:
the resolved path, whether it is a regular file, and the outcome the
file system gives for reading it. -/
structure FileInfo where
  path : String
  isFile : Bool
  readResult : Except String String

/-- The data captured into one generated test function by the tests
macro. -/
structure TestDescriptor where
  testFnName : String
  testName : String
  harnessName : String
  paramsJsonStr : String
  outputAbs : String
  outputRel : String
  gitRoot : String

/-- Path join on the Unix string model of PathBuf::join: an absolute
right-hand side replaces the base, otherwise the pieces are joined with
a single separator. -/
def pathJoin (a b : String) : String :=
  if strStarts "/" b then b
  else if a = "" then b
  else if a.data.getLast? = some '/' then a ++ b
  else a ++ "/" ++ b

/-- Models Path::strip_prefix against the git root: removes the root (and
its separator) when the path lies under it. -/
def stripPathRoot (root p : String) : Option String :=
  if p = root then some ""
  else if strStarts (root ++ "/") p then some (String.mk (p.data.drop (root.length + 1)))
  else none

/-- Index of the last dot in a file name, if any. -/
def lastDotIdx : List Char → Option Nat
  | [] => none
  | c :: cs =>
    match lastDotIdx cs with
    | some i => some (i + 1)
    | none => if c = '.' then some 0 else none

/-- Models Path::file_stem on a file name: everything before the final
dot, except that a leading dot with no later dot keeps the whole name. -/
def stemOfName (name : List Char) : List Char :=
  match lastDotIdx name with
  | none => name
  | some 0 => name
  | some i => name.take i

/-- Split a character list at separator slashes. -/
def splitSlash : List Char → List Char → List (List Char)
  | [], acc => [acc.reverse]
  | c :: cs, acc =>
      if c = '/' then acc.reverse :: splitSlash cs [] else splitSlash cs (c :: acc)

/-- Join path components with separator slashes. -/
def joinSlash : List (List Char) → List Char
  | [] => []
  | [x] => x
  | x :: xs => x ++ ('/' :: joinSlash xs)

/-- Models Path::file_stem on the string path model: the stem of the
component after the last separator (none for an empty file name). -/
def fileStem (p : String) : Option String :=
  match (splitSlash p.data []).getLast? with
  | none => none
  | some name => if name = [] then none else some (String.mk (stemOfName name))

/-- Models the stem sanitization stem.replace(|c| !c.is_alphanumeric(), "_")
on the ASCII range the engine exercises. -/
def sanitizeStem (s : String) : String :=
  String.mk (s.data.map fun c => if c.isAlphanum then c else '_')

/-- Message of the read-failure compile error, from
format!("Failed to read blessed file \x7b:?\x7d: \x7b\x7d", path, e). -/
def readFailMsg (p e : String) : String :=
  "Failed to read blessed file " ++ rustDebugStr p ++ ": " ++ e

/-- Message of the parse-failure compile error. -/
def parseFailMsg (p e : String) : String :=
  "Failed to parse blessed file " ++ rustDebugStr p ++ ": " ++ e

/-- Message of the file-stem compile error. -/
def stemFailMsg (p : String) : String :=
  "Could not get file stem from path: " ++ rustDebugStr p

/-- Message of the containment compile error raised when the output path
is not inside the git root. -/
def containFailMsg (out root : String) : String :=
  "Output file path " ++ rustDebugStr out ++ " is not inside git root " ++ rustDebugStr root

/-- The absolute output path computed for a case: the configured output
directory (manifest dir joined with "blessed/") joined with the case
name plus the artifact extension. -/
def outputPathAbs (manifestDir caseName : String) : String :=
  pathJoin (pathJoin manifestDir "blessed/") (caseName ++ ".json")

/-- Synthesis of the tests of one fixture file, in case order: for each
case, the output path, its git-root-relative form (aborting when the
path escapes the root) and the captured descriptor. -/
def genCases (manifestDir gitRoot stem : String) :
    List (String × BlessedDefinition) → Except String (List TestDescriptor)
  | [] => .ok []
  | (name, dfn) :: rest =>
    let outAbs := outputPathAbs manifestDir name
    match stripPathRoot gitRoot outAbs with
    | none => .error (containFailMsg outAbs gitRoot)
    | some rel =>
      match genCases manifestDir gitRoot stem rest with
      | .error e => .error e
      | .ok ds =>
        .ok (⟨"blessed_test_" ++ stem ++ "_" ++ name, name, dfn.harness,
              jsonToString dfn.params, outAbs, rel, gitRoot⟩ :: ds)

/-- The discovery and synthesis loop of the tests macro over the glob
results: glob entry errors are printed and skipped; non-files are
skipped; for a file, a stem failure, a read failure or a parse failure
aborts the whole expansion with a compile error; otherwise the file's
cases are synthesized and accumulated.  parseCases is the external
typed serde parse of the file content into the case map.  When no file
is found the loop still returns the (empty) accumulated tests. -/
def generateTests (parseCases : String → Except String (List (String × BlessedDefinition)))
    (entries : List (Except String FileInfo)) (manifestDir gitRoot : String) :
    Except String (List TestDescriptor) :=
  match entries with
  | [] => .ok []
  | .error _ :: rest => generateTests parseCases rest manifestDir gitRoot
  | .ok fi :: rest =>
    if fi.isFile then
      match fileStem fi.path with
      | none => .error (stemFailMsg fi.path)
      | some rawStem =>
        match fi.readResult with
        | .error e => .error (readFailMsg fi.path e)
        | .ok content =>
          match parseCases content with
          | .error e => .error (parseFailMsg fi.path e)
          | .ok cases =>
            match genCases manifestDir gitRoot (sanitizeStem rawStem) cases with
            | .error e => .error e
            | .ok ds =>
              match generateTests parseCases rest manifestDir gitRoot with
              | .error e => .error e
              | .ok more => .ok (ds ++ more)
    else generateTests parseCases rest manifestDir gitRoot

/-- The spec's classification of a raw git status report, read off the
prefix tests of the generated test body in their source order. -/
inductive Classification where
  | Untracked
  | ModifiedUnstaged
  | StagedNewOrClean
  | Unexpected (raw : String)
  deriving DecidableEq

/-- Classification of the raw porcelain status output by the prefix
chain of the generated test body: "?? " first, then " M " or "AM ",
then "A " or emptiness, anything else is unexpected. -/
def classifyStatus (s : String) : Classification :=
  if strStarts "?? " s then .Untracked
  else if strStarts " M " s || strStarts "AM " s then .ModifiedUnstaged
  else if strStarts "A " s || s.data.isEmpty then .StagedNewOrClean
  else .Unexpected s

/-- Outcome of one generated test function: a panic with its message, or
normal completion. -/
inductive UnitOutcome where
  | panicked (msg : String)
  | passed
  deriving DecidableEq

/-- Result of running one generated test body: the artifact writes it
performed and how it ended. -/
structure UnitResult where
  writes : List (String × String)
  outcome : UnitOutcome

/-- Panic message of the untracked branch. -/
def untrackedMsg (tn rp : String) : String :=
  "Blessed test \x27" ++ tn ++ "\x27: Untracked file \x27" ++ rp ++
    "\x27. Please review and \x60git add\x60 the file."

/-- Panic message of the modified-unstaged branch. -/
def modifiedMsg (tn rp : String) : String :=
  "Blessed test \x27" ++ tn ++ "\x27: File \x27" ++ rp ++
    "\x27 is modified and differs from the git index. Please review changes and \x60git add\x60 or revert."

/-- Panic message of the unexpected-status branch; the raw status text is
rendered with the Debug formatter. -/
def unexpectedMsg (tn rp raw : String) : String :=
  "Blessed test \x27" ++ tn ++ "\x27: Unexpected git status for \x27" ++ rp ++
    "\x27: " ++ rustDebugStr raw ++ ". Please check repository state."

/-- Panic message when the git status query itself fails. -/
def gitStatusFailMsg (tn rp e : String) : String :=
  "Blessed test \x27" ++ tn ++ "\x27: Failed to get git status for \x27" ++ rp ++ "\x27: " ++ e

/-- Panic message of the missing-harness branch: it names the requested
harness and the Debug rendering of every registered name. -/
def harnessNotFoundMsg (name : String) (reg : List HarnessFn) : String :=
  "Blessed harness function \x27" ++ name ++ "\x27 not found. Available: " ++
    rustDebugStrList (reg.map HarnessFn.name)

/-- Panic message when creating the output directory fails. -/
def createDirFailMsg (parent e : String) : String :=
  "Failed to create output directory \x27" ++ rustDebugStr parent ++ "\x27: " ++ e

/-- Panic message when writing the artifact fails. -/
def writeFailMsg (p e : String) : String :=
  "Failed to write blessed output file \x27" ++ p ++ "\x27: " ++ e

/-- Panic message of the params re-parse expect (the cause is appended by
the expect formatter). -/
def paramsParseFailMsg (e : String) : String :=
  "Failed to parse params JSON string (should not happen): " ++ e

/-- Parent directory of the output path, as Path::parent sees it on the
string model: the portion before the last separator. -/
def parentDir (p : String) : Option String :=
  match splitSlash p.data [] with
  | [] => none
  | [_] => none
  | parts => some (String.mk (joinSlash parts.dropLast))

/-- Pass/fail verdict from one classified status line, with the exact
panic messages of the generated test body. -/
def statusVerdict (tn rp s : String) : UnitOutcome :=
  match classifyStatus s with
  | .Untracked => .panicked (untrackedMsg tn rp)
  | .ModifiedUnstaged => .panicked (modifiedMsg tn rp)
  | .StagedNewOrClean => .passed
  | .Unexpected raw => .panicked (unexpectedMsg tn rp raw)

/-- What happens after the artifact write: the status query either fails
(its message is wrapped) or its output is classified. -/
def postWriteOutcome (d : TestDescriptor) (gitStatus : Except String String) : UnitOutcome :=
  match gitStatus with
  | .error e => .panicked (gitStatusFailMsg d.testName d.outputRel e)
  | .ok statusOutput => statusVerdict d.testName d.outputRel statusOutput

/-- The run-time body of one generated test, with the outcomes of the
external calls (directory creation, file write, git status query)
passed in: registry lookup, params re-parse, harness invocation,
serialization of the result or of the wrapped error, artifact write,
then golden verification. -/
def runUnit (reg : List HarnessFn) (d : TestDescriptor)
    (createDirResult : Except String Unit) (writeResult : Except String Unit)
    (gitStatus : Except String String) : UnitResult :=
  match lookupHarness reg d.harnessName with
  | none => ⟨[], .panicked (harnessNotFoundMsg d.harnessName reg)⟩
  | some h =>
    match from_str d.paramsJsonStr with
    | .error e => ⟨[], .panicked (paramsParseFailMsg e)⟩
    | .ok params =>
      let outputJson : String :=
        match h.func params with
        | .ok value => jsonToStringPretty value
        | .error e => jsonToStringPretty (Json.obj [("blessed_error", Json.str e)])
      let afterDir : UnitResult :=
        match writeResult with
        | .error e => ⟨[], .panicked (writeFailMsg d.outputAbs e)⟩
        | .ok _ => ⟨[(d.outputAbs, outputJson)], postWriteOutcome d gitStatus⟩
      match parentDir d.outputAbs with
      | none => afterDir
      | some parent =>
        match createDirResult with
        | .error e => ⟨[], .panicked (createDirFailMsg parent e)⟩
        | .ok _ => afterDir

theorem skipWs_not_ws {c : Char} (cs : List Char) (h : wsChar c = false) :
    skipWs (c :: cs) = c :: cs := by
  simp [skipWs, List.dropWhile_cons, h]

theorem expectChars_append (ls rest : List Char) : expectChars ls (ls ++ rest) = .ok rest := by
  induction ls with
  | nil => rfl
  | cons l ls ih => simp [expectChars, ih]

theorem digitChar_isDigit {n : Nat} (h : n < 10) : (digitChar n).isDigit = true := by
  interval_cases n <;> decide

theorem digitChar_toNat {n : Nat} (h : n < 10) : (digitChar n).toNat = 48 + n := by
  interval_cases n <;> decide

theorem natToChars_digits {n : Nat} : ∀ c ∈ natToChars n, c.isDigit = true := by
  induction n using Nat.strong_induction_on with
  | _ n ih =>
    rw [natToChars]
    split
    · next h => intro c hc; simp at hc; subst hc; exact digitChar_isDigit h
    · next h =>
      intro c hc
      simp only [List.mem_append, List.mem_singleton] at hc
      rcases hc with hc | hc
      · exact ih (n / 10) (Nat.div_lt_self (by omega) (by omega)) c hc
      · subst hc; exact digitChar_isDigit (Nat.mod_lt _ (by omega))

theorem natToChars_ne_nil {n : Nat} : natToChars n ≠ [] := by
  rw [natToChars]
  split <;> simp

theorem natToChars_cons (n : Nat) : ∃ c cs, natToChars n = c :: cs ∧ c.isDigit = true := by
  cases h : natToChars n with
  | nil => exact absurd h natToChars_ne_nil
  | cons c cs => exact ⟨c, cs, rfl, natToChars_digits c (h ▸ List.mem_cons_self c cs)⟩

theorem parseDigitsAcc_print (n : Nat) : ∀ acc rest,
    parseDigitsAcc (natToChars n ++ rest) acc =
      parseDigitsAcc rest (acc * 10 ^ (natToChars n).length + n) := by
  induction n using Nat.strong_induction_on with
  | _ n ih =>
    intro acc rest
    rw [natToChars]
    split
    · next h =>
      simp only [List.singleton_append, parseDigitsAcc, digitChar_isDigit h, if_pos]
      rw [digitChar_toNat h]
      congr 1
      simp only [List.length_singleton, pow_one]
      omega
    · next h =>
      rw [List.append_assoc]
      rw [ih (n / 10) (Nat.div_lt_self (by omega) (by omega))]
      have h10 : n % 10 < 10 := Nat.mod_lt _ (by omega)
      simp only [List.singleton_append, parseDigitsAcc, digitChar_isDigit h10, if_pos]
      rw [digitChar_toNat h10]
      simp only [List.length_append, List.length_singleton]
      congr 1
      have : 48 + n % 10 - 48 = n % 10 := by omega
      rw [this]
      rw [pow_succ]
      have := Nat.div_add_mod n 10
      ring_nf
      omega

theorem parseDigitsAcc_stop {cs : List Char} (acc : Nat) (h : numCont cs = false) :
    parseDigitsAcc cs acc = (acc, cs) := by
  cases cs with
  | nil => rfl
  | cons c r =>
    simp only [numCont, Bool.or_eq_false_iff] at h
    simp [parseDigitsAcc, h.1.1.1]

theorem parseNat_print (n : Nat) (rest : List Char) (h : numCont rest = false) :
    parseNat (natToChars n ++ rest) = .ok (n, rest) := by
  simp only [parseNat, parseDigitsAcc_print, parseDigitsAcc_stop _ h, Nat.zero_mul, Nat.zero_add, h]
  simp [h]

theorem hexDigitChar_isHex {m : Nat} (h : m < 16) : isHexDig (hexDigitChar m) = true := by
  interval_cases m <;> decide

theorem hexVal_hexDigitChar {m : Nat} (h : m < 16) : hexVal (hexDigitChar m) = m := by
  interval_cases m <;> decide

theorem escJson_step (c : Char) (cs : List Char) :
    parseStrChars (escJsonChar c ++ cs) = (parseStrChars cs).map fun (s, r) => (c :: s, r) := by
  unfold escJsonChar
  split_ifs with h1 h2 h3 h4 h5 h6 h7 h8
  · subst h1
    rw [parseStrChars.eq_def]
    simp
  · subst h2
    rw [parseStrChars.eq_def]
    simp
  · subst h3
    rw [parseStrChars.eq_def]
    simp
  · subst h4
    rw [parseStrChars.eq_def]
    simp
  · subst h5
    rw [parseStrChars.eq_def]
    simp
  · subst h6
    rw [parseStrChars.eq_def]
    simp
  · subst h7
    rw [parseStrChars.eq_def]
    simp
  · have hd : c.toNat / 16 < 16 := by omega
    have hm : c.toNat % 16 < 16 := by omega
    rw [parseStrChars.eq_def]
    simp only [List.cons_append, List.nil_append]
    have hcn : c.toNat / 16 * 16 + c.toNat % 16 = c.toNat := by omega
    have hno : ¬(55296 ≤ c.toNat ∧ c.toNat < 57344) := by omega
    simp [hexDigitChar_isHex hd, hexDigitChar_isHex hm, hexVal_hexDigitChar hd,
          hexVal_hexDigitChar hm, show isHexDig '0' = true from by decide,
          show hexVal '0' = 0 from by decide, hcn, hno, Char.ofNat_toNat]
  · rw [parseStrChars.eq_def]
    simp only [List.cons_append, List.nil_append]
    rw [if_neg h1, if_neg h2, if_neg h8]

theorem printStr_roundtrip (s rest : List Char) :
    parseStrChars (s.flatMap escJsonChar ++ ('"' :: rest)) = .ok (s, rest) := by
  induction s with
  | nil =>
    rw [List.flatMap_nil, List.nil_append, parseStrChars.eq_def]
    simp
  | cons c s ih =>
    rw [List.flatMap_cons, List.append_assoc, escJson_step, ih]
    rfl

theorem jsizeV_pos (v : Json) : 1 ≤ jsizeV v := by
  cases v with
  | arr xs => cases xs <;> simp [jsizeV] <;> omega
  | obj kvs => cases kvs <;> simp [jsizeV] <;> omega
  | _ => simp [jsizeV]

theorem jsizeT_pos (xs : List Json) : 1 ≤ jsizeT xs := by
  cases xs <;> simp [jsizeT] <;> omega

theorem jsizeM_pos (kv : String × Json) : 1 ≤ jsizeM kv := by
  cases kv; simp [jsizeM]

theorem jsizeO_pos (kvs : List (String × Json)) : 1 ≤ jsizeO kvs := by
  cases kvs <;> simp [jsizeO] <;> omega

theorem digit_ne_of_not_digit {c d : Char} (h : c.isDigit = true) (hd : d.isDigit = false) :
    c ≠ d := fun he => by rw [he] at h; rw [h] at hd; cases hd

theorem digit_not_ws {c : Char} (h : c.isDigit = true) : wsChar c = false := by
  simp only [wsChar, Bool.or_eq_false_iff, beq_eq_false_iff_ne]
  exact ⟨⟨⟨digit_ne_of_not_digit h (by decide), digit_ne_of_not_digit h (by decide)⟩,
    digit_ne_of_not_digit h (by decide)⟩, digit_ne_of_not_digit h (by decide)⟩

theorem numCont_printArrTail (xs : List Json) (rest : List Char) :
    numCont (printArrTail xs ++ rest) = false := by
  cases xs <;> simp [printArrTail, numCont]

theorem numCont_printObjTail (kvs : List (String × Json)) (rest : List Char) :
    numCont (printObjTail kvs ++ rest) = false := by
  cases kvs <;> simp [printObjTail, numCont, rcurl]

theorem printJson_head (v : Json) :
    ∃ c cs, printJson v = c :: cs ∧ wsChar c = false ∧ c ≠ ']' := by
  cases v with
  | null => exact ⟨'n', _, rfl, by decide, by decide⟩
  | bool b => cases b
              · exact ⟨'f', _, rfl, by decide, by decide⟩
              · exact ⟨'t', _, rfl, by decide, by decide⟩
  | num k =>
    show ∃ c cs, intChars k = c :: cs ∧ _
    unfold intChars
    split
    · exact ⟨'-', _, rfl, by decide, by decide⟩
    · obtain ⟨c, cs, hc, hd⟩ := natToChars_cons k.natAbs
      exact ⟨c, cs, hc, digit_not_ws hd, digit_ne_of_not_digit hd (by decide)⟩
  | str s => exact ⟨'"', _, rfl, by decide, by decide⟩
  | arr xs => cases xs
              · exact ⟨'[', _, rfl, by decide, by decide⟩
              · exact ⟨'[', _, rfl, by decide, by decide⟩
  | obj kvs => cases kvs
               · exact ⟨lcurl, _, rfl, by decide, by decide⟩
               · exact ⟨lcurl, _, rfl, by decide, by decide⟩

theorem minus_ne_marks : ('-' ≠ 'n') ∧ ('-' ≠ 't') ∧ ('-' ≠ 'f') ∧ ('-' ≠ '"') ∧ ('-' ≠ '[') ∧ ('-' ≠ lcurl) := by
  refine ⟨by decide, by decide, by decide, by decide, by decide, by decide⟩

theorem parse_print_mutual : ∀ n : Nat,
    (∀ v rest, numCont rest = false → jsizeV v ≤ n →
        parseValue n (printJson v ++ rest) = .ok (v, rest))
  ∧ (∀ xs rest, numCont rest = false → jsizeT xs ≤ n →
        parseArrTail n (printArrTail xs ++ rest) = .ok (xs, rest))
  ∧ (∀ kv rest, numCont rest = false → jsizeM kv ≤ n →
        parseMember n (printMember kv ++ rest) = .ok (kv, rest))
  ∧ (∀ kvs rest, numCont rest = false → jsizeO kvs ≤ n →
        parseObjTail n (printObjTail kvs ++ rest) = .ok (kvs, rest)) := by
  intro n
  induction n with
  | zero =>
    refine ⟨fun v _ _ hs => ?_, fun xs _ _ hs => ?_, fun kv _ _ hs => ?_, fun kvs _ _ hs => ?_⟩
    · exact absurd hs (by have := jsizeV_pos v; omega)
    · exact absurd hs (by have := jsizeT_pos xs; omega)
    · exact absurd hs (by have := jsizeM_pos kv; omega)
    · exact absurd hs (by have := jsizeO_pos kvs; omega)
  | succ n ih =>
    obtain ⟨ihV, ihT, ihM, ihO⟩ := ih
    refine ⟨fun v rest hrest hsize => ?_, fun xs rest hrest hsize => ?_,
            fun kv rest hrest hsize => ?_, fun kvs rest hrest hsize => ?_⟩
    · -- parseValue re-reads a printed value
      cases v with
      | null =>
        show parseValue (n + 1) (['n', 'u', 'l', 'l'] ++ rest) = _
        rw [parseValue]
        simp only [List.cons_append, List.nil_append]
        rw [skipWs_not_ws _ (by decide)]
        simp [expectChars]
        rfl
      | bool b =>
        cases b
        · show parseValue (n + 1) (['f', 'a', 'l', 's', 'e'] ++ rest) = _
          rw [parseValue]
          simp only [List.cons_append, List.nil_append]
          rw [skipWs_not_ws _ (by decide)]
          simp [expectChars]
          rfl
        · show parseValue (n + 1) (['t', 'r', 'u', 'e'] ++ rest) = _
          rw [parseValue]
          simp only [List.cons_append, List.nil_append]
          rw [skipWs_not_ws _ (by decide)]
          simp [expectChars]
          rfl
      | num k =>
        show parseValue (n + 1) (intChars k ++ rest) = _
        unfold intChars
        split
        · next hneg =>
          rw [parseValue]
          simp only [List.cons_append]
          rw [skipWs_not_ws _ (by decide)]
          simp only [if_neg (show ('-' : Char) ≠ 'n' from by decide),
                     if_neg (show ('-' : Char) ≠ 't' from by decide),
                     if_neg (show ('-' : Char) ≠ 'f' from by decide),
                     if_neg (show ('-' : Char) ≠ '"' from by decide),
                     if_neg (show ('-' : Char) ≠ '[' from by decide),
                     if_neg (show ('-' : Char) ≠ lcurl from by decide),
                     if_pos rfl]
          obtain ⟨c, cs, hc, hd⟩ := natToChars_cons k.natAbs
          rw [hc]
          simp only [List.cons_append, if_pos hd]
          rw [show (c :: (cs ++ rest)) = ((c :: cs) ++ rest) from rfl, ← hc,
              parseNat_print _ _ hrest]
          simp only [Except.map]
          rw [show (-(k.natAbs : Int)) = k from by omega]
          simp
        · next hneg =>
          obtain ⟨c, cs, hc, hd⟩ := natToChars_cons k.natAbs
          rw [hc, parseValue]
          simp only [List.cons_append]
          rw [skipWs_not_ws _ (digit_not_ws hd)]
          simp only [if_neg (digit_ne_of_not_digit hd (by decide) :  c ≠ 'n'),
                     if_neg (digit_ne_of_not_digit hd (by decide) :  c ≠ 't'),
                     if_neg (digit_ne_of_not_digit hd (by decide) :  c ≠ 'f'),
                     if_neg (digit_ne_of_not_digit hd (by decide) :  c ≠ '"'),
                     if_neg (digit_ne_of_not_digit hd (by decide) :  c ≠ '['),
                     if_neg (digit_ne_of_not_digit hd (by decide) :  c ≠ lcurl),
                     if_neg (digit_ne_of_not_digit hd (by decide) :  c ≠ '-'),
                     if_pos hd]
          rw [show (c :: (cs ++ rest)) = ((c :: cs) ++ rest) from rfl, ← hc,
              parseNat_print _ _ hrest]
          simp only [Except.map]
          rw [show ((k.natAbs : Int)) = k from by omega]
      | str s =>
        show parseValue (n + 1) (printStrChars s.data ++ rest) = _
        unfold printStrChars
        rw [parseValue]
        simp only [List.cons_append]
        rw [skipWs_not_ws _ (by decide)]
        simp only [if_neg (show ('"' : Char) ≠ 'n' from by decide),
                   if_neg (show ('"' : Char) ≠ 't' from by decide),
                   if_neg (show ('"' : Char) ≠ 'f' from by decide),
                   if_pos rfl]
        rw [List.append_assoc]
        simp only [List.singleton_append]
        rw [printStr_roundtrip]
        simp [String.mk]
      | arr xs =>
        cases xs with
        | nil =>
          show parseValue (n + 1) (['[', ']'] ++ rest) = _
          rw [parseValue]
          simp only [List.cons_append, List.nil_append]
          rw [skipWs_not_ws _ (by decide)]
          simp only [if_neg (show ('[' : Char) ≠ 'n' from by decide),
                     if_neg (show ('[' : Char) ≠ 't' from by decide),
                     if_neg (show ('[' : Char) ≠ 'f' from by decide),
                     if_neg (show ('[' : Char) ≠ '"' from by decide),
                     if_pos rfl]
          rw [skipWs_not_ws _ (by decide)]
          simp
        | cons x txs =>
          show parseValue (n + 1) (('[' :: (printJson x ++ printArrTail txs)) ++ rest) = _
          rw [parseValue]
          simp only [List.cons_append]
          rw [skipWs_not_ws _ (by decide)]
          simp only [if_neg (show ('[' : Char) ≠ 'n' from by decide),
                     if_neg (show ('[' : Char) ≠ 't' from by decide),
                     if_neg (show ('[' : Char) ≠ 'f' from by decide),
                     if_neg (show ('[' : Char) ≠ '"' from by decide),
                     if_pos rfl]
          obtain ⟨c, cs, hc, hcw, hcb⟩ := printJson_head x
          rw [List.append_assoc, hc]
          simp only [List.cons_append]
          rw [skipWs_not_ws _ hcw]
          simp only [if_neg hcb]
          rw [show (c :: (cs ++ (printArrTail txs ++ rest))) =
                ((c :: cs) ++ (printArrTail txs ++ rest)) from rfl, ← hc]
          have hszV : jsizeV x ≤ n := by
            have h1 := jsizeT_pos txs
            simp only [jsizeV] at hsize
            omega
          have hszT : jsizeT txs ≤ n := by
            have h1 := jsizeV_pos x
            simp only [jsizeV] at hsize
            omega
          rw [ihV x _ (numCont_printArrTail txs rest) hszV]
          simp [ihT txs rest hrest hszT]
      | obj kvs =>
        cases kvs with
        | nil =>
          show parseValue (n + 1) ([lcurl, rcurl] ++ rest) = _
          rw [parseValue]
          simp only [List.cons_append, List.nil_append]
          rw [skipWs_not_ws _ (by decide)]
          simp only [if_neg (show lcurl ≠ 'n' from by decide),
                     if_neg (show lcurl ≠ 't' from by decide),
                     if_neg (show lcurl ≠ 'f' from by decide),
                     if_neg (show lcurl ≠ '"' from by decide),
                     if_neg (show lcurl ≠ '[' from by decide),
                     if_pos rfl]
          rw [skipWs_not_ws _ (by decide)]
          simp
        | cons kv tkvs =>
          show parseValue (n + 1) ((lcurl :: (printMember kv ++ printObjTail tkvs)) ++ rest) = _
          rw [parseValue]
          simp only [List.cons_append]
          rw [skipWs_not_ws _ (by decide)]
          simp only [if_neg (show lcurl ≠ 'n' from by decide),
                     if_neg (show lcurl ≠ 't' from by decide),
                     if_neg (show lcurl ≠ 'f' from by decide),
                     if_neg (show lcurl ≠ '"' from by decide),
                     if_neg (show lcurl ≠ '[' from by decide),
                     if_pos rfl]
          have hszM : jsizeM kv ≤ n := by
            have h1 := jsizeO_pos tkvs
            simp only [jsizeV] at hsize
            omega
          have hszO : jsizeO tkvs ≤ n := by
            have h1 := jsizeM_pos kv
            simp only [jsizeV] at hsize
            omega
          obtain ⟨k, v⟩ := kv
          rw [List.append_assoc]
          rw [show printMember (k, v) = '"' :: (k.data.flatMap escJsonChar ++
                ('"' :: (':' :: printJson v))) from by simp [printMember, printStrChars]]
          simp only [List.cons_append]
          rw [skipWs_not_ws _ (by decide)]
          simp only [if_neg (show ('"' : Char) ≠ rcurl from by decide)]
          rw [show ('"' :: ((k.data.flatMap escJsonChar ++ ('"' :: (':' :: printJson v))) ++
                (printObjTail tkvs ++ rest))) =
              (printMember (k, v) ++ (printObjTail tkvs ++ rest)) from by
            simp [printMember, printStrChars]]
          rw [ihM (k, v) _ (numCont_printObjTail tkvs rest) hszM]
          simp [ihO tkvs rest hrest hszO]
    · -- parseArrTail re-reads a printed array tail
      cases xs with
      | nil =>
        show parseArrTail (n + 1) ([']'] ++ rest) = _
        rw [parseArrTail]
        simp only [List.cons_append, List.nil_append]
        rw [skipWs_not_ws _ (by decide)]
        simp
      | cons x txs =>
        show parseArrTail (n + 1) ((',' :: (printJson x ++ printArrTail txs)) ++ rest) = _
        rw [parseArrTail]
        simp only [List.cons_append]
        rw [skipWs_not_ws _ (by decide)]
        simp only [if_neg (show (',' : Char) ≠ ']' from by decide), if_pos rfl]
        rw [List.append_assoc]
        have hszV : jsizeV x ≤ n := by
          have h1 := jsizeT_pos txs
          simp only [jsizeT] at hsize
          omega
        have hszT : jsizeT txs ≤ n := by
          have h1 := jsizeV_pos x
          simp only [jsizeT] at hsize
          omega
        rw [ihV x _ (numCont_printArrTail txs rest) hszV]
        simp [ihT txs rest hrest hszT]
    · -- parseMember re-reads a printed member
      obtain ⟨k, v⟩ := kv
      show parseMember (n + 1) ((printStrChars k.data ++ (':' :: printJson v)) ++ rest) = _
      unfold printStrChars
      rw [parseMember]
      simp only [List.cons_append]
      rw [skipWs_not_ws _ (by decide)]
      simp only [if_pos rfl]
      rw [List.append_assoc]
      rw [show ((k.data.flatMap escJsonChar ++ ['"']) ++ ((':' :: printJson v) ++ rest)) =
            (k.data.flatMap escJsonChar ++ ('"' :: ((':' :: printJson v) ++ rest))) from by simp]
      rw [printStr_roundtrip]
      simp only [List.cons_append]
      rw [skipWs_not_ws _ (by decide)]
      simp only [if_pos rfl]
      have hszV : jsizeV v ≤ n := by
        simp only [jsizeM] at hsize
        omega
      simp [ihV v rest hrest hszV]
    · -- parseObjTail re-reads a printed object tail
      cases kvs with
      | nil =>
        show parseObjTail (n + 1) ([rcurl] ++ rest) = _
        rw [parseObjTail]
        simp only [List.cons_append, List.nil_append]
        rw [skipWs_not_ws _ (by decide)]
        simp
      | cons kv tkvs =>
        show parseObjTail (n + 1) ((',' :: (printMember kv ++ printObjTail tkvs)) ++ rest) = _
        rw [parseObjTail]
        simp only [List.cons_append]
        rw [skipWs_not_ws _ (by decide)]
        simp only [if_neg (show (',' : Char) ≠ rcurl from by decide), if_pos rfl]
        rw [List.append_assoc]
        have hszM : jsizeM kv ≤ n := by
          have h1 := jsizeO_pos tkvs
          simp only [jsizeO] at hsize
          omega
        have hszO : jsizeO tkvs ≤ n := by
          have h1 := jsizeM_pos kv
          simp only [jsizeO] at hsize
          omega
        rw [ihM kv _ (numCont_printObjTail tkvs rest) hszM]
        simp [ihO tkvs rest hrest hszO]

mutual

theorem jsizeV_le_len (v : Json) : jsizeV v ≤ (printJson v).length := by
  cases v with
  | null => simp [jsizeV, printJson]
  | bool b => cases b <;> simp [jsizeV, printJson]
  | num k =>
    obtain ⟨c, cs, hc, _⟩ := natToChars_cons k.natAbs
    simp only [jsizeV, printJson, intChars]
    split <;> simp [hc]
  | str s => simp [jsizeV, printJson, printStrChars]
  | arr xs =>
    cases xs with
    | nil => simp [jsizeV, printJson]
    | cons x txs =>
      have h1 := jsizeV_le_len x
      have h2 := jsizeT_le_len txs
      simp only [jsizeV, printJson, List.length_cons, List.length_append]
      omega
  | obj kvs =>
    cases kvs with
    | nil => simp [jsizeV, printJson]
    | cons kv tkvs =>
      have h1 := jsizeM_le_len kv
      have h2 := jsizeO_le_len tkvs
      simp only [jsizeV, printJson, List.length_cons, List.length_append]
      omega

theorem jsizeT_le_len (xs : List Json) : jsizeT xs ≤ (printArrTail xs).length := by
  cases xs with
  | nil => simp [jsizeT, printArrTail]
  | cons x txs =>
    have h1 := jsizeV_le_len x
    have h2 := jsizeT_le_len txs
    simp only [jsizeT, printArrTail, List.length_cons, List.length_append]
    omega

theorem jsizeM_le_len (kv : String × Json) : jsizeM kv ≤ (printMember kv).length := by
  obtain ⟨k, v⟩ := kv
  have h1 := jsizeV_le_len v
  simp only [jsizeM, printMember, printStrChars, List.length_cons, List.length_append]
  omega

theorem jsizeO_le_len (kvs : List (String × Json)) : jsizeO kvs ≤ (printObjTail kvs).length := by
  cases kvs with
  | nil => simp [jsizeO, printObjTail]
  | cons kv tkvs =>
    have h1 := jsizeM_le_len kv
    have h2 := jsizeO_le_len tkvs
    simp only [jsizeO, printObjTail, List.length_cons, List.length_append]
    omega

end

theorem from_str_jsonToString (v : Json) : from_str (jsonToString v) = .ok v := by
  unfold from_str jsonToString
  have hdata : (String.mk (printJson v)).data = printJson v := rfl
  rw [hdata]
  have hsz : jsizeV v ≤ (printJson v).length + 1 :=
    Nat.le_trans (jsizeV_le_len v) (by omega)
  have h := (parse_print_mutual ((printJson v).length + 1)).1 v [] rfl hsz
  rw [List.append_nil] at h
  rw [h]
  simp [skipWs]

theorem strContains_appendL (a : String) {b n : String} (h : strContains b n) :
    strContains (a ++ b) n := by
  obtain ⟨pre, post, hb⟩ := h
  exact ⟨a ++ pre, post, by rw [hb]; simp [String.append_assoc]⟩

theorem strContains_appendR (c : String) {b n : String} (h : strContains b n) :
    strContains (b ++ c) n := by
  obtain ⟨pre, post, hb⟩ := h
  exact ⟨pre, post ++ c, by rw [hb]; simp [String.append_assoc]⟩

theorem strContains_self (n : String) : strContains n n :=
  ⟨"", "", by simp⟩

theorem mem_debugListParts {x : String} : ∀ {names : List String}, x ∈ names →
    strContains (debugListParts names) (rustDebugStr x) := by
  intro names
  induction names with
  | nil => intro h; cases h
  | cons y ys ih =>
    intro h
    rcases List.mem_cons.mp h with rfl | hmem
    · cases ys with
      | nil => exact strContains_self _
      | cons z zs =>
        show strContains (rustDebugStr x ++ ", " ++ debugListParts (z :: zs)) _
        exact strContains_appendR _ (strContains_appendR _ (strContains_self _))
    · cases ys with
      | nil => cases hmem
      | cons z zs =>
        show strContains (rustDebugStr y ++ ", " ++ debugListParts (z :: zs)) _
        rw [String.append_assoc]
        exact strContains_appendL _ (strContains_appendL _ (ih hmem))

theorem harnessNotFoundMsg_contains (name : String) (reg : List HarnessFn) :
    strContains (harnessNotFoundMsg name reg) name ∧
    ∀ h ∈ reg, strContains (harnessNotFoundMsg name reg) (rustDebugStr h.name) := by
  constructor
  · exact ⟨"Blessed harness function \x27",
      "\x27 not found. Available: " ++ rustDebugStrList (reg.map HarnessFn.name), by
        simp [harnessNotFoundMsg, String.append_assoc]⟩
  · intro h hmem
    have hx : h.name ∈ reg.map HarnessFn.name := List.mem_map_of_mem _ hmem
    have hc := mem_debugListParts hx
    unfold harnessNotFoundMsg rustDebugStrList
    exact strContains_appendL _ (strContains_appendR _ (strContains_appendL _ hc))

theorem genCases_mem {manifestDir gitRoot stem : String} :
    ∀ {cases : List (String × BlessedDefinition)} {ds : List TestDescriptor},
    genCases manifestDir gitRoot stem cases = .ok ds →
    ∀ d ∈ ds, d.outputAbs = outputPathAbs manifestDir d.testName ∧
      ∃ v : Json, d.paramsJsonStr = jsonToString v := by
  intro cases
  induction cases with
  | nil =>
    intro ds h d hd
    simp only [genCases] at h
    cases h
    cases hd
  | cons nd rest ih =>
    obtain ⟨name, dfn⟩ := nd
    intro ds h d hd
    simp only [genCases] at h
    cases hstrip : stripPathRoot gitRoot (outputPathAbs manifestDir name) with
    | none => rw [hstrip] at h; cases h
    | some rel =>
      rw [hstrip] at h
      cases hrest : genCases manifestDir gitRoot stem rest with
      | error e => rw [hrest] at h; cases h
      | ok ds2 =>
        rw [hrest] at h
        cases h
        rcases List.mem_cons.mp hd with rfl | hmem
        · exact ⟨rfl, dfn.params, rfl⟩
        · exact ih hrest d hmem

theorem generateTests_mem
    {parseCases : String → Except String (List (String × BlessedDefinition))}
    {manifestDir gitRoot : String} :
    ∀ {entries : List (Except String FileInfo)} {ds : List TestDescriptor},
    generateTests parseCases entries manifestDir gitRoot = .ok ds →
    ∀ d ∈ ds, d.outputAbs = outputPathAbs manifestDir d.testName ∧
      ∃ v : Json, d.paramsJsonStr = jsonToString v := by
  intro entries
  induction entries with
  | nil =>
    intro ds h d hd
    simp only [generateTests] at h
    cases h
    cases hd
  | cons entry rest ih =>
    intro ds h d hd
    cases entry with
    | error e =>
      simp only [generateTests] at h
      exact ih h d hd
    | ok fi =>
      simp only [generateTests] at h
      by_cases hfile : fi.isFile
      · rw [if_pos hfile] at h
        split at h
        · cases h
        · split at h
          · cases h
          · split at h
            · cases h
            · split at h
              · cases h
              · split at h
                · cases h
                · rename_i x1 dsA hgen x2 dsB hrest2
                  cases h
                  rcases List.mem_append.mp hd with hmem | hmem
                  · exact genCases_mem hgen d hmem
                  · exact ih hrest2 d hmem
      · rw [if_neg hfile] at h
        exact ih h d hd

theorem runUnit_writes_indep (reg : List HarnessFn) (d : TestDescriptor)
    (cd wr : Except String Unit) (gsa gsb : Except String String) :
    (runUnit reg d cd wr gsa).writes = (runUnit reg d cd wr gsb).writes := by
  unfold runUnit
  cases lookupHarness reg d.harnessName with
  | none => rfl
  | some h =>
    cases from_str d.paramsJsonStr with
    | error e => rfl
    | ok params =>
      cases parentDir d.outputAbs with
      | none => cases wr <;> rfl
      | some parent =>
        cases cd with
        | error e => rfl
        | ok u => cases wr <;> rfl

theorem runUnit_not_found {reg : List HarnessFn} {d : TestDescriptor}
    (cd wr : Except String Unit) (gs : Except String String)
    (h : lookupHarness reg d.harnessName = none) :
    runUnit reg d cd wr gs = ⟨[], .panicked (harnessNotFoundMsg d.harnessName reg)⟩ := by
  unfold runUnit
  rw [h]

theorem runUnit_err_artifact {reg : List HarnessFn} {d : TestDescriptor} {h : HarnessFn}
    {v : Json} {m : String} (gs : Except String String)
    (hlookup : lookupHarness reg d.harnessName = some h)
    (hparse : from_str d.paramsJsonStr = .ok v)
    (hfunc : h.func v = .error m) :
    runUnit reg d (.ok ()) (.ok ()) gs =
      ⟨[(d.outputAbs, jsonToStringPretty (Json.obj [("blessed_error", Json.str m)]))],
        postWriteOutcome d gs⟩ := by
  unfold runUnit
  rw [hlookup, hparse]
  simp only [hfunc]
  cases hp : parentDir d.outputAbs <;> simp [hp]

theorem runUnit_committed_passes {reg : List HarnessFn} {d : TestDescriptor} {h : HarnessFn}
    {v : Json} (hlookup : lookupHarness reg d.harnessName = some h)
    (hparse : from_str d.paramsJsonStr = .ok v) :
    (runUnit reg d (.ok ()) (.ok ()) (.ok "")).outcome = .passed := by
  unfold runUnit
  rw [hlookup, hparse]
  have hpost : postWriteOutcome d (.ok "") = .passed := by
    simp [postWriteOutcome, statusVerdict, classifyStatus, strStarts, charsPre]
  cases hp : parentDir d.outputAbs <;> simp [hp, hpost]

theorem charsPre_head {a : Char} {p s : List Char} (h : charsPre (a :: p) s = true) :
    ∃ t, s = a :: t ∧ charsPre p t = true := by
  cases s with
  | nil => simp [charsPre] at h
  | cons b t =>
    simp only [charsPre, Bool.and_eq_true, beq_iff_eq] at h
    exact ⟨t, by rw [h.1], h.2⟩

theorem generateTests_skip_globErr
    (parseCases : String → Except String (List (String × BlessedDefinition)))
    (e : String) (rest : List (Except String FileInfo)) (manifestDir gitRoot : String) :
    generateTests parseCases (.error e :: rest) manifestDir gitRoot =
      generateTests parseCases rest manifestDir gitRoot := by
  simp [generateTests]

theorem generateTests_nil
    (parseCases : String → Except String (List (String × BlessedDefinition)))
    (manifestDir gitRoot : String) :
    generateTests parseCases [] manifestDir gitRoot = .ok [] := by
  simp [generateTests]

theorem generateTests_nonfile
    (parseCases : String → Except String (List (String × BlessedDefinition)))
    (p : String) (rr : Except String String) (rest : List (Except String FileInfo))
    (manifestDir gitRoot : String) :
    generateTests parseCases (.ok ⟨p, false, rr⟩ :: rest) manifestDir gitRoot =
      generateTests parseCases rest manifestDir gitRoot := by
  simp [generateTests]

theorem generateTests_read_fail
    (parseCases : String → Except String (List (String × BlessedDefinition)))
    {p st : String} (e : String) (rest : List (Except String FileInfo))
    (manifestDir gitRoot : String) (hstem : fileStem p = some st) :
    generateTests parseCases (.ok ⟨p, true, .error e⟩ :: rest) manifestDir gitRoot =
      .error (readFailMsg p e) := by
  simp [generateTests, hstem]

theorem generateTests_parse_fail
    {parseCases : String → Except String (List (String × BlessedDefinition))}
    {p st content pe : String} (rest : List (Except String FileInfo))
    (manifestDir gitRoot : String) (hstem : fileStem p = some st)
    (hparse : parseCases content = .error pe) :
    generateTests parseCases (.ok ⟨p, true, .ok content⟩ :: rest) manifestDir gitRoot =
      .error (parseFailMsg p pe) := by
  simp [generateTests, hstem, hparse]

theorem generateTests_contain_fail
    {parseCases : String → Except String (List (String × BlessedDefinition))}
    {p st content name : String} {dfn : BlessedDefinition}
    {more : List (String × BlessedDefinition)} (rest : List (Except String FileInfo))
    {manifestDir gitRoot : String} (hstem : fileStem p = some st)
    (hparse : parseCases content = .ok ((name, dfn) :: more))
    (hstrip : stripPathRoot gitRoot (outputPathAbs manifestDir name) = none) :
    generateTests parseCases (.ok ⟨p, true, .ok content⟩ :: rest) manifestDir gitRoot =
      .error (containFailMsg (outputPathAbs manifestDir name) gitRoot) := by
  simp [generateTests, genCases, hstem, hparse, hstrip]

theorem readFailMsg_contains (p e : String) :
    strContains (readFailMsg p e) (rustDebugStr p) ∧ strContains (readFailMsg p e) e := by
  constructor
  · exact ⟨"Failed to read blessed file ", ": " ++ e, by
      simp [readFailMsg, String.append_assoc]⟩
  · exact ⟨"Failed to read blessed file " ++ rustDebugStr p ++ ": ", "", by
      simp [readFailMsg, String.append_assoc]⟩

theorem parseFailMsg_contains (p e : String) :
    strContains (parseFailMsg p e) (rustDebugStr p) ∧ strContains (parseFailMsg p e) e := by
  constructor
  · exact ⟨"Failed to parse blessed file ", ": " ++ e, by
      simp [parseFailMsg, String.append_assoc]⟩
  · exact ⟨"Failed to parse blessed file " ++ rustDebugStr p ++ ": ", "", by
      simp [parseFailMsg, String.append_assoc]⟩

theorem classify_modified {s : String} (h : (strStarts " M " s || strStarts "AM " s) = true) :
    classifyStatus s = .ModifiedUnstaged := by
  have hq : strStarts "?? " s = false := by
    rcases (Bool.or_eq_true _ _).mp h with hM | hA
    · have hM' : charsPre (' ' :: 'M' :: ' ' :: []) s.data = true := hM
      obtain ⟨t, ht, _⟩ := charsPre_head hM'
      show charsPre ('?' :: '?' :: ' ' :: []) s.data = false
      rw [ht]
      simp [charsPre]
    · have hA' : charsPre ('A' :: 'M' :: ' ' :: []) s.data = true := hA
      obtain ⟨t, ht, _⟩ := charsPre_head hA'
      show charsPre ('?' :: '?' :: ' ' :: []) s.data = false
      rw [ht]
      simp [charsPre]
  simp [classifyStatus, hq, h]

theorem statusVerdict_modified (tn rp : String) {s : String}
    (h : (strStarts " M " s || strStarts "AM " s) = true) :
    statusVerdict tn rp s = .panicked (modifiedMsg tn rp) := by
  simp [statusVerdict, classify_modified h]

theorem classify_staged_M_line (p : String) :
    classifyStatus ("M  " ++ p) = .Unexpected ("M  " ++ p) := by
  have hdata : ("M  " ++ p).data = 'M' :: ' ' :: ' ' :: p.data := by
    rw [String.data_append]
    rfl
  have h1 : strStarts "?? " ("M  " ++ p) = false := by
    show charsPre ('?' :: '?' :: ' ' :: []) ("M  " ++ p).data = false
    rw [hdata]; simp [charsPre]
  have h2 : strStarts " M " ("M  " ++ p) = false := by
    show charsPre (' ' :: 'M' :: ' ' :: []) ("M  " ++ p).data = false
    rw [hdata]; simp [charsPre]
  have h3 : strStarts "AM " ("M  " ++ p) = false := by
    show charsPre ('A' :: 'M' :: ' ' :: []) ("M  " ++ p).data = false
    rw [hdata]; simp [charsPre]
  have h4 : strStarts "A " ("M  " ++ p) = false := by
    show charsPre ('A' :: ' ' :: []) ("M  " ++ p).data = false
    rw [hdata]; simp [charsPre]
  have h5 : ("M  " ++ p).data.isEmpty = false := by
    rw [hdata]; rfl
  simp [classifyStatus, h1, h2, h3, h4, h5]

theorem postWrite_empty_passes (d : TestDescriptor) :
    postWriteOutcome d (.ok "") = .passed := by
  simp [postWriteOutcome, statusVerdict, classifyStatus, strStarts, charsPre]

/-- C1: with zero matching fixture files (an empty glob result, or one that
yields no regular file), the expansion of the tests macro produces zero test
units and succeeds, rather than synthesizing one always-failing unit. -/
theorem claim1_no_fixture_units :
    (∀ parseCases manifestDir gitRoot,
        generateTests parseCases [] manifestDir gitRoot = .ok []) ∧
    (∀ parseCases p rr manifestDir gitRoot,
        generateTests parseCases [.ok ⟨p, false, rr⟩] manifestDir gitRoot = .ok []) := by
  refine ⟨generateTests_nil, fun pc p rr md gr => ?_⟩
  rw [generateTests_nonfile, generateTests_nil]

/-- C2 counterexample: a staged-modification status line, with M in the first
code column, is classified Unexpected, not ModifiedUnstaged. -/
theorem claim2_counterexample :
    classifyStatus "M  blessed/basic.json\n" = .Unexpected "M  blessed/basic.json\n" ∧
    classifyStatus "M  blessed/basic.json\n" ≠ .ModifiedUnstaged ∧
    statusVerdict "basic" "blessed/basic.json" "M  blessed/basic.json\n" ≠
      .panicked (modifiedMsg "basic" "blessed/basic.json") := by
  refine ⟨by decide, by decide, by decide⟩

/-- C2 (amended): a status line starting " M " or "AM " is classified
ModifiedUnstaged and the unit fails with the differs-from-index message;
a staged-modification line "M  <path>" is instead classified Unexpected. -/
theorem claim2_modified_classification (tn rp : String) {s : String}
    (h : (strStarts " M " s || strStarts "AM " s) = true) :
    classifyStatus s = .ModifiedUnstaged ∧
    statusVerdict tn rp s = .panicked (modifiedMsg tn rp) ∧
    strContains (modifiedMsg tn rp) "is modified and differs from the git index" ∧
    (∀ p, classifyStatus ("M  " ++ p) = .Unexpected ("M  " ++ p)) := by
  refine ⟨classify_modified h, statusVerdict_modified tn rp h, ?_, classify_staged_M_line⟩
  refine ⟨"Blessed test \x27" ++ tn ++ "\x27: File \x27" ++ rp ++ "\x27 ",
    ". Please review changes and \x60git add\x60 or revert.", ?_⟩
  have hsplit : "\x27 is modified and differs from the git index. Please review changes and \x60git add\x60 or revert." =
      "\x27 " ++ "is modified and differs from the git index" ++
        ". Please review changes and \x60git add\x60 or revert." := by decide
  simp only [modifiedMsg, hsplit, String.append_assoc]

theorem claim2_witness :
    classifyStatus " M blessed/basic.json\n" = .ModifiedUnstaged ∧
    statusVerdict "basic" "blessed/basic.json" " M blessed/basic.json\n" =
      .panicked (modifiedMsg "basic" "blessed/basic.json") :=
  ⟨(claim2_modified_classification "basic" "blessed/basic.json" (by decide)).1,
   (claim2_modified_classification "basic" "blessed/basic.json" (by decide)).2.1⟩

/-- C3 counterexample: for a rename status line the unit fails with the
Unexpected message, but that message does not contain the raw status text
verbatim: the Debug formatter escapes the trailing newline, so the raw
bytes never occur as a substring of the message. -/
theorem claim3_counterexample :
    statusVerdict "basic" "blessed/basic.json" "R  blessed/basic.json -> blessed/other.json\n" =
      .panicked (unexpectedMsg "basic" "blessed/basic.json"
        "R  blessed/basic.json -> blessed/other.json\n") ∧
    ¬ strContains
      (unexpectedMsg "basic" "blessed/basic.json" "R  blessed/basic.json -> blessed/other.json\n")
      "R  blessed/basic.json -> blessed/other.json\n" := by
  constructor
  · decide
  · rintro ⟨pre, post, heq⟩
    have hd := congrArg String.data heq
    simp only [String.data_append] at hd
    have hn : '\n' ∈ (unexpectedMsg "basic" "blessed/basic.json"
        "R  blessed/basic.json -> blessed/other.json\n").data := by
      rw [hd]
      have hm : '\n' ∈ ("R  blessed/basic.json -> blessed/other.json\n").data := by decide
      simp [hm]
    exact absurd hn (by decide)

/-- C3 (amended): the literal classification table scenarios hold, with the
Unexpected failure message containing the Debug rendering of the raw status
text (quotes added, newline escaped) rather than the raw bytes. -/
theorem claim3_table_scenarios :
    classifyStatus "?? blessed/basic.json\n" = .Untracked ∧
    statusVerdict "basic" "blessed/basic.json" "?? blessed/basic.json\n" =
      .panicked (untrackedMsg "basic" "blessed/basic.json") ∧
    classifyStatus " M blessed/basic.json\n" = .ModifiedUnstaged ∧
    statusVerdict "basic" "blessed/basic.json" " M blessed/basic.json\n" =
      .panicked (modifiedMsg "basic" "blessed/basic.json") ∧
    classifyStatus "A  blessed/basic.json\n" = .StagedNewOrClean ∧
    statusVerdict "basic" "blessed/basic.json" "A  blessed/basic.json\n" = .passed ∧
    classifyStatus "" = .StagedNewOrClean ∧
    statusVerdict "basic" "blessed/basic.json" "" = .passed ∧
    classifyStatus "R  blessed/basic.json -> blessed/other.json\n" =
      .Unexpected "R  blessed/basic.json -> blessed/other.json\n" ∧
    statusVerdict "basic" "blessed/basic.json" "R  blessed/basic.json -> blessed/other.json\n" =
      .panicked (unexpectedMsg "basic" "blessed/basic.json"
        "R  blessed/basic.json -> blessed/other.json\n") ∧
    strContains
      (unexpectedMsg "basic" "blessed/basic.json" "R  blessed/basic.json -> blessed/other.json\n")
      (rustDebugStr "R  blessed/basic.json -> blessed/other.json\n") := by
  refine ⟨by decide, by decide, by decide, by decide, by decide, by decide, by decide, by decide,
    by decide, by decide, ?_⟩
  exact ⟨"Blessed test \x27basic\x27: Unexpected git status for \x27blessed/basic.json\x27: ",
    ". Please check repository state.", by decide⟩

/-- C4: when the harness invocation returns the error path with message m,
the unit does not fail at that point: it writes the artifact containing the
pretty-printed wrapped error object, and proceeds to golden verification
(whose outcome is the same function of the git status as on any successful
run, and passes for example on a clean status). -/
theorem claim4_error_artifact {reg : List HarnessFn} {d : TestDescriptor} {h : HarnessFn}
    {v : Json} {m : String} (gs : Except String String)
    (hlookup : lookupHarness reg d.harnessName = some h)
    (hparse : from_str d.paramsJsonStr = .ok v)
    (hfunc : h.func v = .error m) :
    runUnit reg d (.ok ()) (.ok ()) gs =
      ⟨[(d.outputAbs, jsonToStringPretty (Json.obj [("blessed_error", Json.str m)]))],
        postWriteOutcome d gs⟩ ∧
    postWriteOutcome d (.ok "") = .passed :=
  ⟨runUnit_err_artifact gs hlookup hparse hfunc, postWrite_empty_passes d⟩

theorem claim4_witness :
    runUnit [⟨"h", fun _ => Except.error "boom"⟩]
        ⟨"blessed_test_f_basic", "basic", "h", "null",
          "/proj/blessed/basic.json", "blessed/basic.json", "/proj"⟩
        (.ok ()) (.ok ()) (.ok "") =
      ⟨[("/proj/blessed/basic.json",
          jsonToStringPretty (Json.obj [("blessed_error", Json.str "boom")]))],
        postWriteOutcome ⟨"blessed_test_f_basic", "basic", "h", "null",
          "/proj/blessed/basic.json", "blessed/basic.json", "/proj"⟩ (.ok "")⟩ ∧
    postWriteOutcome (⟨"blessed_test_f_basic", "basic", "h", "null",
        "/proj/blessed/basic.json", "blessed/basic.json", "/proj"⟩ : TestDescriptor)
      (.ok "") = .passed :=
  claim4_error_artifact (.ok "") rfl rfl rfl

/-- C5: the harness adapter returns the wrapped deserialization failure
without invoking the harness body (the result is the same for every wrapped
function), applies the function on deserialization success, wraps a
serialization failure, and returns the serialized output otherwise. -/
theorem claim5_adapter_contract {I O : Type}
    (deser : Json → Except String I) (ser ser2 : O → Except String Json) (f : I → O)
    (j1 j2 : Json) (c cs : String) (i : I) (v : Json)
    (h1 : deser j1 = .error c) (h2 : deser j2 = .ok i)
    (h3 : ser (f i) = .error cs) (h4 : ser2 (f i) = .ok v) :
    harnessWrapper deser ser f j1 = .error ("Failed to deserialize input: " ++ c) ∧
    (∀ g : I → O, harnessWrapper deser ser g j1 = harnessWrapper deser ser f j1) ∧
    harnessWrapper deser ser f j2 = .error ("Failed to serialize output: " ++ cs) ∧
    harnessWrapper deser ser2 f j2 = .ok v := by
  refine ⟨?_, ?_, ?_, ?_⟩ <;> simp [harnessWrapper, h1, h2, h3, h4]

theorem claim5_witness :
    harnessWrapper
        (fun j => match j with | Json.null => Except.error "bad shape" | _ => Except.ok (3 : Nat))
        (fun _ => Except.error "loop") (fun n => n) Json.null =
      .error ("Failed to deserialize input: " ++ "bad shape") ∧
    harnessWrapper
        (fun j => match j with | Json.null => Except.error "bad shape" | _ => Except.ok (3 : Nat))
        (fun _ => Except.error "loop") (fun n => n) (Json.bool true) =
      .error ("Failed to serialize output: " ++ "loop") ∧
    harnessWrapper
        (fun j => match j with | Json.null => Except.error "bad shape" | _ => Except.ok (3 : Nat))
        (fun n => Except.ok (Json.num n)) (fun n => n) (Json.bool true) =
      .ok (Json.num 3) :=
  ⟨(claim5_adapter_contract
      (fun j => match j with | Json.null => Except.error "bad shape" | _ => Except.ok (3 : Nat))
      (fun _ => Except.error "loop") (fun n => Except.ok (Json.num n)) (fun n => n)
      Json.null (Json.bool true) "bad shape" "loop" 3 (Json.num 3) rfl rfl rfl rfl).1,
   (claim5_adapter_contract
      (fun j => match j with | Json.null => Except.error "bad shape" | _ => Except.ok (3 : Nat))
      (fun _ => Except.error "loop") (fun n => Except.ok (Json.num n)) (fun n => n)
      Json.null (Json.bool true) "bad shape" "loop" 3 (Json.num 3) rfl rfl rfl rfl).2.2.1,
   (claim5_adapter_contract
      (fun j => match j with | Json.null => Except.error "bad shape" | _ => Except.ok (3 : Nat))
      (fun _ => Except.error "loop") (fun n => Except.ok (Json.num n)) (fun n => n)
      Json.null (Json.bool true) "bad shape" "loop" 3 (Json.num 3) rfl rfl rfl rfl).2.2.2⟩

/-- C6 counterexample: a glob entry resolution failure does not abort the
expansion: with one failed glob entry followed by one good fixture file,
generation succeeds and produces that file's test. -/
theorem claim6_counterexample :
    generateTests (fun _ => .ok [("basic", ⟨"h", Json.null⟩)])
      [.error "permission denied while resolving a glob match",
       .ok ⟨"/proj/src/a.blessed.json", true, .ok "irrelevant"⟩]
      "/proj" "/proj" =
      .ok [⟨"blessed_test_a_blessed_basic", "basic", "h", "null",
            "/proj/blessed/basic.json", "blessed/basic.json", "/proj"⟩] := by
  rfl

/-- C6 (amended): failures to read a fixture file, to parse its content, or
to relativize an output path against the git root each abort the whole
expansion with a compile error naming the offending file and the cause; a
glob entry resolution error, however, is only logged and skipped. -/
theorem claim6_setup_failures
    {parseCases : String → Except String (List (String × BlessedDefinition))}
    {p st content content2 pe name : String} (e : String)
    {dfn : BlessedDefinition} {more : List (String × BlessedDefinition)}
    {manifestDir gitRoot : String}
    (hstem : fileStem p = some st)
    (hparse : parseCases content = .error pe)
    (hparse2 : parseCases content2 = .ok ((name, dfn) :: more))
    (hstrip : stripPathRoot gitRoot (outputPathAbs manifestDir name) = none) :
    (∀ e2 rest, generateTests parseCases (.error e2 :: rest) manifestDir gitRoot =
        generateTests parseCases rest manifestDir gitRoot) ∧
    (∀ rest, generateTests parseCases (.ok ⟨p, true, .error e⟩ :: rest) manifestDir gitRoot =
        .error (readFailMsg p e) ∧ strContains (readFailMsg p e) (rustDebugStr p) ∧
        strContains (readFailMsg p e) e) ∧
    (∀ rest, generateTests parseCases (.ok ⟨p, true, .ok content⟩ :: rest) manifestDir gitRoot =
        .error (parseFailMsg p pe) ∧ strContains (parseFailMsg p pe) (rustDebugStr p) ∧
        strContains (parseFailMsg p pe) pe) ∧
    (∀ rest, generateTests parseCases (.ok ⟨p, true, .ok content2⟩ :: rest) manifestDir gitRoot =
        .error (containFailMsg (outputPathAbs manifestDir name) gitRoot)) := by
  refine ⟨fun e2 rest => generateTests_skip_globErr parseCases e2 rest manifestDir gitRoot,
    fun rest => ⟨generateTests_read_fail parseCases e rest manifestDir gitRoot hstem,
      (readFailMsg_contains p e).1, (readFailMsg_contains p e).2⟩,
    fun rest => ⟨generateTests_parse_fail rest manifestDir gitRoot hstem hparse,
      (parseFailMsg_contains p pe).1, (parseFailMsg_contains p pe).2⟩,
    fun rest => generateTests_contain_fail rest hstem hparse2 hstrip⟩

theorem claim6_hstem : fileStem "/proj/src/a.blessed.json" = some "a.blessed" := rfl

theorem claim6_hparse :
    (fun c => if c = "bad" then Except.error "expected value at line 1"
              else Except.ok [("basic", (⟨"h", Json.null⟩ : BlessedDefinition))]) "bad" =
      Except.error "expected value at line 1" := rfl

theorem claim6_hparse2 :
    (fun c => if c = "bad" then Except.error "expected value at line 1"
              else Except.ok [("basic", (⟨"h", Json.null⟩ : BlessedDefinition))]) "good" =
      Except.ok (("basic", (⟨"h", Json.null⟩ : BlessedDefinition)) :: []) := rfl

theorem claim6_hstrip : stripPathRoot "/elsewhere" (outputPathAbs "/proj" "basic") = none := rfl

theorem claim6_witness :
    generateTests
        (fun c => if c = "bad" then .error "expected value at line 1"
                  else .ok [("basic", ⟨"h", Json.null⟩)])
        [.ok ⟨"/proj/src/a.blessed.json", true, .error "os error 13"⟩]
        "/proj" "/elsewhere" = .error (readFailMsg "/proj/src/a.blessed.json" "os error 13") ∧
    generateTests
        (fun c => if c = "bad" then .error "expected value at line 1"
                  else .ok [("basic", ⟨"h", Json.null⟩)])
        [.ok ⟨"/proj/src/a.blessed.json", true, .ok "bad"⟩]
        "/proj" "/elsewhere" =
      .error (parseFailMsg "/proj/src/a.blessed.json" "expected value at line 1") ∧
    generateTests
        (fun c => if c = "bad" then .error "expected value at line 1"
                  else .ok [("basic", ⟨"h", Json.null⟩)])
        [.ok ⟨"/proj/src/a.blessed.json", true, .ok "good"⟩]
        "/proj" "/elsewhere" =
      .error (containFailMsg (outputPathAbs "/proj" "basic") "/elsewhere") :=
  ⟨((@claim6_setup_failures
      (fun c => if c = "bad" then Except.error "expected value at line 1"
                else Except.ok [("basic", (⟨"h", Json.null⟩ : BlessedDefinition))])
      "/proj/src/a.blessed.json" "a.blessed" "bad" "good" "expected value at line 1" "basic"
      "os error 13" ⟨"h", Json.null⟩ [] "/proj" "/elsewhere"
      claim6_hstem claim6_hparse claim6_hparse2 claim6_hstrip).2.1 []).1,
   ((@claim6_setup_failures
      (fun c => if c = "bad" then Except.error "expected value at line 1"
                else Except.ok [("basic", (⟨"h", Json.null⟩ : BlessedDefinition))])
      "/proj/src/a.blessed.json" "a.blessed" "bad" "good" "expected value at line 1" "basic"
      "os error 13" ⟨"h", Json.null⟩ [] "/proj" "/elsewhere"
      claim6_hstem claim6_hparse claim6_hparse2 claim6_hstrip).2.2.1 []).1,
   (@claim6_setup_failures
      (fun c => if c = "bad" then Except.error "expected value at line 1"
                else Except.ok [("basic", (⟨"h", Json.null⟩ : BlessedDefinition))])
      "/proj/src/a.blessed.json" "a.blessed" "bad" "good" "expected value at line 1" "basic"
      "os error 13" ⟨"h", Json.null⟩ [] "/proj" "/elsewhere"
      claim6_hstem claim6_hparse claim6_hparse2 claim6_hstrip).2.2.2 []⟩

/-- C7: when the descriptor names an unregistered harness, the unit fails
fatally before any artifact write (its write list is empty), and the panic
message names the missing harness and contains the Debug rendering of every
name in the registry. -/
theorem claim7_missing_harness {reg : List HarnessFn} {d : TestDescriptor}
    (cd wr : Except String Unit) (gs : Except String String)
    (h : lookupHarness reg d.harnessName = none) :
    runUnit reg d cd wr gs = ⟨[], .panicked (harnessNotFoundMsg d.harnessName reg)⟩ ∧
    strContains (harnessNotFoundMsg d.harnessName reg) d.harnessName ∧
    ∀ hf ∈ reg, strContains (harnessNotFoundMsg d.harnessName reg) (rustDebugStr hf.name) :=
  ⟨runUnit_not_found cd wr gs h, (harnessNotFoundMsg_contains _ _).1,
   (harnessNotFoundMsg_contains _ _).2⟩

theorem claim7_hlookup :
    lookupHarness [⟨"parse_compile_match", fun j => Except.ok j⟩]
      (TestDescriptor.harnessName ⟨"blessed_test_f_basic", "basic", "no_such_harness", "null",
        "/proj/blessed/basic.json", "blessed/basic.json", "/proj"⟩) = none := rfl

theorem claim7_witness :
    runUnit [⟨"parse_compile_match", fun j => Except.ok j⟩]
        ⟨"blessed_test_f_basic", "basic", "no_such_harness", "null",
          "/proj/blessed/basic.json", "blessed/basic.json", "/proj"⟩
        (.ok ()) (.ok ()) (.ok "") =
      ⟨[], .panicked (harnessNotFoundMsg "no_such_harness"
        [⟨"parse_compile_match", fun j => Except.ok j⟩])⟩ ∧
    strContains (harnessNotFoundMsg "no_such_harness"
      [⟨"parse_compile_match", fun j => Except.ok j⟩]) "no_such_harness" ∧
    strContains (harnessNotFoundMsg "no_such_harness"
      [⟨"parse_compile_match", fun j => Except.ok j⟩]) (rustDebugStr "parse_compile_match") :=
  ⟨(claim7_missing_harness (.ok ()) (.ok ()) (.ok "") claim7_hlookup).1,
   (claim7_missing_harness (.ok ()) (.ok ()) (.ok "") claim7_hlookup).2.1,
   (claim7_missing_harness (.ok ()) (.ok ()) (.ok "") claim7_hlookup).2.2
     ⟨"parse_compile_match", fun j => Except.ok j⟩ (by simp)⟩


/-- C8: every descriptor the expansion produces has output path equal to the
pure function of the configured output directory (manifest dir joined with
"blessed/") and the case name alone; hence any two descriptors with equal
case names, in the same or different fixture files, share one output path. -/
theorem claim8_output_path
    {parseCases : String → Except String (List (String × BlessedDefinition))}
    {entries : List (Except String FileInfo)} {manifestDir gitRoot : String}
    {ds : List TestDescriptor}
    (h : generateTests parseCases entries manifestDir gitRoot = .ok ds) :
    (∀ d ∈ ds, d.outputAbs = outputPathAbs manifestDir d.testName) ∧
    (∀ d1 ∈ ds, ∀ d2 ∈ ds, d1.testName = d2.testName → d1.outputAbs = d2.outputAbs) := by
  refine ⟨fun d hd => (generateTests_mem h d hd).1, fun d1 h1 d2 h2 hn => ?_⟩
  rw [(generateTests_mem h d1 h1).1, (generateTests_mem h d2 h2).1, hn]

theorem claim8_hgen :
    generateTests (fun _ => Except.ok [("basic", (⟨"h", Json.null⟩ : BlessedDefinition))])
      [.ok ⟨"/proj/src/a.blessed.json", true, .ok "A"⟩,
       .ok ⟨"/proj/src/b.blessed.json", true, .ok "B"⟩]
      "/proj" "/proj" =
      .ok [⟨"blessed_test_a_blessed_basic", "basic", "h", "null",
            "/proj/blessed/basic.json", "blessed/basic.json", "/proj"⟩,
           ⟨"blessed_test_b_blessed_basic", "basic", "h", "null",
            "/proj/blessed/basic.json", "blessed/basic.json", "/proj"⟩] := rfl

theorem claim8_witness :
    (⟨"blessed_test_a_blessed_basic", "basic", "h", "null",
      "/proj/blessed/basic.json", "blessed/basic.json", "/proj"⟩ : TestDescriptor).outputAbs =
      outputPathAbs "/proj"
        (⟨"blessed_test_a_blessed_basic", "basic", "h", "null",
          "/proj/blessed/basic.json", "blessed/basic.json", "/proj"⟩ : TestDescriptor).testName ∧
    (⟨"blessed_test_a_blessed_basic", "basic", "h", "null",
      "/proj/blessed/basic.json", "blessed/basic.json", "/proj"⟩ : TestDescriptor).outputAbs =
    (⟨"blessed_test_b_blessed_basic", "basic", "h", "null",
      "/proj/blessed/basic.json", "blessed/basic.json", "/proj"⟩ : TestDescriptor).outputAbs :=
  ⟨(claim8_output_path claim8_hgen).1 _ (by simp),
   (claim8_output_path claim8_hgen).2 _ (by simp) _ (by simp) rfl⟩

/-- C9: the artifact bytes a unit writes do not depend on the git status
answer (the write happens before the status query), so two runs over the
same descriptor and registry write identical artifacts; and when the status
of the path is clean (empty porcelain output, the committed-artifact case)
the unit classifies it StagedNewOrClean and passes. -/
theorem claim9_idempotence {reg : List HarnessFn} {d : TestDescriptor} {h : HarnessFn} {v : Json}
    (hlookup : lookupHarness reg d.harnessName = some h)
    (hparse : from_str d.paramsJsonStr = .ok v) :
    (∀ cd wr gsa gsb, (runUnit reg d cd wr gsa).writes = (runUnit reg d cd wr gsb).writes) ∧
    classifyStatus "" = .StagedNewOrClean ∧
    (runUnit reg d (.ok ()) (.ok ()) (.ok "")).outcome = .passed :=
  ⟨fun cd wr gsa gsb => runUnit_writes_indep reg d cd wr gsa gsb, by decide,
   runUnit_committed_passes hlookup hparse⟩

theorem claim9_hlookup :
    lookupHarness [⟨"h", fun j => Except.ok j⟩]
      (TestDescriptor.harnessName ⟨"blessed_test_f_basic", "basic", "h", "null",
        "/proj/blessed/basic.json", "blessed/basic.json", "/proj"⟩) =
      some ⟨"h", fun j => Except.ok j⟩ := rfl

theorem claim9_hparse :
    from_str (TestDescriptor.paramsJsonStr ⟨"blessed_test_f_basic", "basic", "h", "null",
      "/proj/blessed/basic.json", "blessed/basic.json", "/proj"⟩) = .ok Json.null := rfl

theorem claim9_witness :
    (runUnit [⟨"h", fun j => Except.ok j⟩]
        ⟨"blessed_test_f_basic", "basic", "h", "null",
          "/proj/blessed/basic.json", "blessed/basic.json", "/proj"⟩
        (.ok ()) (.ok ()) (.ok "")).writes =
      (runUnit [⟨"h", fun j => Except.ok j⟩]
        ⟨"blessed_test_f_basic", "basic", "h", "null",
          "/proj/blessed/basic.json", "blessed/basic.json", "/proj"⟩
        (.ok ()) (.ok ()) (.error "git died")).writes ∧
    (runUnit [⟨"h", fun j => Except.ok j⟩]
        ⟨"blessed_test_f_basic", "basic", "h", "null",
          "/proj/blessed/basic.json", "blessed/basic.json", "/proj"⟩
        (.ok ()) (.ok ()) (.ok "")).outcome = .passed :=
  ⟨(claim9_idempotence claim9_hlookup claim9_hparse).1 (.ok ()) (.ok ()) (.ok "")
      (.error "git died"),
   (claim9_idempotence claim9_hlookup claim9_hparse).2.2⟩

/-- C10: serializing any fixture definition's params value to its compact
string form and re-parsing it succeeds and returns the original value, and
every generated descriptor carries a params string of that round-trippable
form, so the run-time parse step of a generated unit never reaches its
failure branch. -/
theorem claim10_params_roundtrip
    {parseCases : String → Except String (List (String × BlessedDefinition))}
    {entries : List (Except String FileInfo)} {manifestDir gitRoot : String}
    {ds : List TestDescriptor}
    (h : generateTests parseCases entries manifestDir gitRoot = .ok ds) :
    (∀ dfn : BlessedDefinition, from_str (jsonToString dfn.params) = .ok dfn.params) ∧
    (∀ d ∈ ds, ∃ v : Json, d.paramsJsonStr = jsonToString v ∧
        from_str d.paramsJsonStr = .ok v) := by
  refine ⟨fun dfn => from_str_jsonToString dfn.params, fun d hd => ?_⟩
  obtain ⟨-, v, hv⟩ := generateTests_mem h d hd
  exact ⟨v, hv, by rw [hv]; exact from_str_jsonToString v⟩

theorem claim10_witness :
    from_str (jsonToString (BlessedDefinition.params ⟨"parse_compile_match",
        Json.obj [("regex", Json.str "ab"),
          ("inputs", Json.arr [Json.str "ab", Json.str "xy"])]⟩)) =
      .ok (Json.obj [("regex", Json.str "ab"),
        ("inputs", Json.arr [Json.str "ab", Json.str "xy"])]) :=
  (claim10_params_roundtrip (generateTests_nil (fun _ => Except.error "unused") "/proj" "/proj")).1
    ⟨"parse_compile_match",
      Json.obj [("regex", Json.str "ab"), ("inputs", Json.arr [Json.str "ab", Json.str "xy"])]⟩
